import Mathlib

/-!
Shallow embedding of the conversational tool-calling orchestration loop of the
ai-task-manager backend.

The embedding follows the source files:
  * `src/services/chat_bot_service.py` — the LangGraph state machine
    (`call_llm_with_tools`, `call_task_manager_api`, `limit_llm_request_exceeded`,
    `resolve_model_response`, `check_gemini_limit_request`, `get_graph`);
  * `src/repositories/gemini_repo.py` — `llm_generate`;
  * `src/repositories/task_manager_repo.py` — the ten tools,
    `get_function_by_name`, and the update-operation body construction.

Network effects are cut at their natural boundaries: the language-model
provider is an oracle `ModelOracle` giving, for each invocation index, either
a response (content plus structured tool calls) or one of the two exception
kinds caught by `llm_generate`; remote tool execution is an oracle `ToolExec`
giving, for a resolved tool function and its (credential-injected) argument
mapping, either a result string or a raised-exception string.  A ghost `trace`
field records observable events (model invocations with their `with_tools`
flag and originating node, tool-result appends, iteration-limit checks); it is
not part of the source state and influences nothing except the oracle index.
-/

namespace AITaskManager

/-- ToolCall as carried on an Assistant message: model-assigned id, tool name,
and the model-supplied argument mapping (modelled as an association list,
looked up Python-dict style by first matching key). -/
structure ToolCall where
  id : String
  name : String
  args : List (String × String)
deriving DecidableEq, Repr

/-- Message roles of the conversation transcript (langchain SystemMessage,
HumanMessage, AIMessage with tool_calls, ToolMessage). -/
inductive Message where
  | system (content : String)
  | human (content : String)
  | assistant (content : String) (tool_calls : List ToolCall)
  | toolMessage (content : String) (tool_call_id : String) (name : String)
deriving DecidableEq, Repr

/-- Outcome of one provider call inside `GeminiRepository.llm_generate`:
either a response, or one of the two exception kinds the source catches
(`ChatGoogleGenerativeAIError`, `LangChainException`). -/
inductive ModelResp where
  | resp (content : String) (tool_calls : List ToolCall)
  | chatGoogleGenerativeAIError (e : String)
  | langChainException (e : String)
deriving DecidableEq, Repr

/-- The ten tool functions of `TaskManagerRepository`. -/
inductive ToolFn where
  | create_task
  | read_task
  | task_list
  | update_task
  | delete_task
  | create_collection
  | read_collection
  | collection_list
  | update_collection
  | delete_collection
deriving DecidableEq, Repr

/-- Outcome of awaiting one resolved tool function: a (stringified) result, or
an exception whose text is `e` (Python `str(e)`). -/
inductive ToolOutcome where
  | ok (result : String)
  | raised (e : String)
deriving DecidableEq, Repr

/-- Ghost events recorded while the graph runs. `modelCall from_limit_node
with_tools` is appended whenever `llm_generate` is invoked;
`toolResultsAppended k` whenever `call_task_manager_api` returns `k` tool
messages; `limitCheck v` whenever `check_gemini_limit_request` is consulted on
a state whose iteration counter is `v`. -/
inductive Event where
  | modelCall (from_limit_node : Bool) (with_tools : Bool)
  | toolResultsAppended (k : Nat)
  | limitCheck (iterations : Int)
deriving DecidableEq, Repr

/-- The LangGraph `ChatBotState` TypedDict: message list, remaining
iterations, (unused) response field, and the request-scoped bearer token;
plus the ghost `trace`. -/
structure ChatBotState where
  messages : List Message
  iterations : Int
  response : String
  token : String
  trace : List Event
deriving DecidableEq, Repr

/-- Errors that escape a graph run: `HTTPException(500, detail)` raised by the
two llm-calling nodes, and `NotImplementedError` raised by
`get_function_by_name`.  Each carries a ghost snapshot of the state at raise
time (messages as they were; nothing from the failing step appended). -/
inductive RunError where
  | httpError (status : Nat) (detail : String) (st : ChatBotState)
  | notImplementedError (msg : String) (st : ChatBotState)
deriving DecidableEq, Repr

/-- Provider oracle: the response to the i-th model invocation of the run. -/
abbrev ModelOracle := Nat → ModelResp

/-- Remote-execution oracle for resolved tool functions. -/
abbrev ToolExec := ToolFn → List (String × String) → ToolOutcome

/-- Python-dict lookup on an association list (first matching key). -/
def pyDictGet {α : Type} : List (String × α) → String → Option α
  | [], _ => Option.none
  | (k', v) :: rest, k => if k' = k then Option.some v else pyDictGet rest k

/-- Python-dict assignment `d[k] = v`: overwrite the value at an existing key,
otherwise append the new entry. -/
def pyDictSet {α : Type} : List (String × α) → String → α → List (String × α)
  | [], k, v => [(k, v)]
  | (k', v') :: rest, k, v =>
    if k' = k then (k', v) :: rest else (k', v') :: pyDictSet rest k v

/-- The `funcs` mapping of `TaskManagerRepository.get_function_by_name`. -/
def funcs : List (String × ToolFn) :=
  [("create_task", ToolFn.create_task),
   ("read_task", ToolFn.read_task),
   ("task_list", ToolFn.task_list),
   ("update_task", ToolFn.update_task),
   ("delete_task", ToolFn.delete_task),
   ("create_collection", ToolFn.create_collection),
   ("read_collection", ToolFn.read_collection),
   ("collection_list", ToolFn.collection_list),
   ("update_collection", ToolFn.update_collection),
   ("delete_collection", ToolFn.delete_collection)]

/-- The ten advertised tool names (the keys of `funcs`). -/
def catalogNames : List String := funcs.map Prod.fst

/-- Source `get_function_by_name`: `funcs.get(name)`, raising
`NotImplementedError(f"Function {name} is not implemented")` when absent. -/
def get_function_by_name (name : String) : Except String ToolFn :=
  match funcs.lookup name with
  | Option.some f => Except.ok f
  | Option.none => Except.error ("Function " ++ name ++ " is not implemented")

/-- Source `GeminiRepository.llm_generate`: returns the provider response, or
`None` when the provider call raised one of the two caught exception kinds.
The `with_tools` flag selects the tool-bound model object in the source; the
provider outcome for the current message history is supplied by the oracle at
each call site, where the flag used is also recorded in the ghost trace. -/
def llm_generate (with_tools : Bool) (response : ModelResp) : Option Message :=
  match with_tools, response with
  | _, ModelResp.resp content tool_calls => Option.some (Message.assistant content tool_calls)
  | _, ModelResp.chatGoogleGenerativeAIError _ => Option.none
  | _, ModelResp.langChainException _ => Option.none

/-- True exactly on the provider outcomes that raise (are caught and turned
into `None` by `llm_generate`). -/
def isProviderError : ModelResp → Bool
  | ModelResp.resp _ _ => false
  | ModelResp.chatGoogleGenerativeAIError _ => true
  | ModelResp.langChainException _ => true

/-- Is this ghost event a model invocation? -/
def isModelCall : Event → Bool
  | Event.modelCall _ _ => true
  | _ => false

/-- Number of model invocations recorded in a trace. -/
def countModelCalls (t : List Event) : Nat := (t.filter isModelCall).length

/-- Source `ChatBotService.call_llm_with_tools`: invoke the model with tools
bound (`with_tools` defaults to `True` and is not overridden); on a `None`
response raise `HTTPException(500)`; otherwise append the response and
decrement the iteration counter by one. -/
def call_llm_with_tools (model : ModelOracle) (st : ChatBotState) :
    Except RunError ChatBotState :=
  match llm_generate true (model (countModelCalls st.trace)) with
  | Option.none =>
      Except.error (RunError.httpError 500 "Error while calling LLM"
        { st with trace := st.trace ++ [Event.modelCall false true] })
  | Option.some msg =>
      Except.ok { st with
        messages := st.messages ++ [msg],
        iterations := st.iterations - 1,
        trace := st.trace ++ [Event.modelCall false true] }

/-- The `messages[-1]` access (any run reaching it has nonempty messages; the
default is never exercised there). -/
def lastMessage (msgs : List Message) : Message :=
  (msgs.getLast?).getD (Message.system "")

/-- The `tool_calls` attribute of a message (empty for non-assistant roles). -/
def tool_calls_of : Message → List ToolCall
  | Message.assistant _ tool_calls => tool_calls
  | _ => []

/-- The loop body of `call_task_manager_api`: for each tool call in order,
resolve the function by name (a failure here propagates, as the source calls
`get_function_by_name` outside the `try` block), inject the request token into
the arguments, await the function inside `try/except Exception` (an exception
text becomes the result), and append a `ToolMessage` whose content is
`f"Function result is: {result}"` with the call's id and name. -/
def exec_tool_calls (exec : ToolExec) (token : String) :
    List ToolCall → Except String (List Message)
  | [] => Except.ok []
  | tool_call :: rest =>
    match get_function_by_name tool_call.name with
    | Except.error e => Except.error e
    | Except.ok function_to_call =>
      let tool_args := pyDictSet tool_call.args "token" token
      let result : String :=
        match exec function_to_call tool_args with
        | ToolOutcome.ok r => r
        | ToolOutcome.raised e => e
      match exec_tool_calls exec token rest with
      | Except.error e => Except.error e
      | Except.ok tail =>
          Except.ok (Message.toolMessage ("Function result is: " ++ result)
            tool_call.id tool_call.name :: tail)

/-- Source `ChatBotService.call_task_manager_api`: execute every tool call of
the last message and append the resulting tool messages to the state. -/
def call_task_manager_api (exec : ToolExec) (st : ChatBotState) :
    Except RunError ChatBotState :=
  match exec_tool_calls exec st.token (tool_calls_of (lastMessage st.messages)) with
  | Except.error e => Except.error (RunError.notImplementedError e st)
  | Except.ok tool_messages =>
      Except.ok { st with
        messages := st.messages ++ tool_messages,
        trace := st.trace ++ [Event.toolResultsAppended tool_messages.length] }

/-- The synthetic instruction appended on the limit-reached path. -/
def limitPromptText : String :=
  "The chatbot has reached its maximum number of LLM API calls for this single user message. Please summarize the results obtained from previous API calls and inform the user that processing has stopped due to this limitation. Let them know they can continue by sending a new message with additional instructions, rather than this being a permanent limit on their account. Use a clear and friendly tone to explain this technical limitation."

/-- Source `ChatBotService.limit_llm_request_exceeded`: append the synthetic
limit prompt, call `llm_generate(messages)` — note the call supplies no
`with_tools` argument, so the source default `True` applies and the tool-bound
model object is used — and append prompt and response.  A `None` response
raises `HTTPException(500)`. -/
def limit_llm_request_exceeded (model : ModelOracle) (st : ChatBotState) :
    Except RunError ChatBotState :=
  let limit_prompt := Message.human limitPromptText
  match llm_generate true (model (countModelCalls st.trace)) with
  | Option.none =>
      Except.error (RunError.httpError 500 "Error while calling LLM"
        { st with trace := st.trace ++ [Event.modelCall true true] })
  | Option.some msg =>
      Except.ok { st with
        messages := st.messages ++ [limit_prompt, msg],
        trace := st.trace ++ [Event.modelCall true true] }

/-- Source `ChatBotService.resolve_model_response`: route to `call_api` when
the last message carries at least one tool call, else to `end`. -/
def resolve_model_response (st : ChatBotState) : String :=
  if (tool_calls_of (lastMessage st.messages)).length > 0 then "call_api" else "end"

/-- Source `ChatBotService.check_gemini_limit_request`: `iterations <= 0`
routes to the limit node, otherwise back to the llm node. -/
def check_gemini_limit_request (st : ChatBotState) : String :=
  if st.iterations ≤ 0 then "limit_llm_request" else "llm"

/-- The compiled graph of `get_graph`, entered at the `llm` node:
`START → llm`; from `llm`, `resolve_model_response` routes to `call_api` or
`END`; from `call_api`, `check_gemini_limit_request` routes back to `llm` or
to `limit_llm_request`, whose only outgoing edge is to `END`.  Exceptions
raised in a node abort the run.  The ghost `limitCheck` event is recorded at
the point where `check_gemini_limit_request` is consulted. -/
def run_from_llm (model : ModelOracle) (exec : ToolExec) (st : ChatBotState) :
    Except RunError ChatBotState :=
  match h1 : call_llm_with_tools model st with
  | Except.error e => Except.error e
  | Except.ok st1 =>
    if resolve_model_response st1 = "end" then
      Except.ok st1
    else
      match h2 : call_task_manager_api exec st1 with
      | Except.error e => Except.error e
      | Except.ok st2 =>
        if h4 : check_gemini_limit_request st2 = "llm" then
          run_from_llm model exec
            { st2 with trace := st2.trace ++ [Event.limitCheck st2.iterations] }
        else
          limit_llm_request_exceeded model
            { st2 with trace := st2.trace ++ [Event.limitCheck st2.iterations] }
termination_by st.iterations.toNat
decreasing_by
  have hit1 : st1.iterations = st.iterations - 1 := by
    simp only [call_llm_with_tools] at h1
    split at h1
    · exact Except.noConfusion h1
    · cases h1; rfl
  have hit2 : st2.iterations = st1.iterations := by
    simp only [call_task_manager_api] at h2
    split at h2
    · exact Except.noConfusion h2
    · cases h2; rfl
  have hgt : ¬ st2.iterations ≤ 0 := by
    intro hle
    simp only [check_gemini_limit_request, if_pos hle] at h4
    exact absurd h4 (by decide)
  show ({ st2 with trace := st2.trace ++ [Event.limitCheck st2.iterations] } :
      ChatBotState).iterations.toNat < st.iterations.toNat
  have hface : ({ st2 with trace := st2.trace ++ [Event.limitCheck st2.iterations] } :
      ChatBotState).iterations = st2.iterations := rfl
  rw [hface]
  omega

/-- The state the chat endpoint seeds the graph with: the given messages, the
configured iteration budget, and the request-scoped token. -/
def initial_state (n : Int) (token : String) (msgs : List Message) : ChatBotState :=
  { messages := msgs, iterations := n, response := "", token := token, trace := [] }

/-- A full graph run from the seeded state. -/
def run_graph (model : ModelOracle) (exec : ToolExec) (n : Int) (token : String)
    (msgs : List Message) : Except RunError ChatBotState :=
  run_from_llm model exec (initial_state n token msgs)

/-- Ghost state at the end of a run (on errors: the snapshot at raise time). -/
def finalState : Except RunError ChatBotState → ChatBotState
  | Except.ok st => st
  | Except.error (RunError.httpError _ _ st) => st
  | Except.error (RunError.notImplementedError _ st) => st

/-- The event trace of a run from `st`. -/
def runTrace (model : ModelOracle) (exec : ToolExec) (st : ChatBotState) :
    List Event :=
  (finalState (run_from_llm model exec st)).trace

/-- The result string the executor obtains for one tool call (defined only
for catalog names; the error arm is never reached under that hypothesis). -/
def tool_result_string (exec : ToolExec) (token : String) (tc : ToolCall) : String :=
  match get_function_by_name tc.name with
  | Except.error e => e
  | Except.ok f =>
    match exec f (pyDictSet tc.args "token" token) with
    | ToolOutcome.ok r => r
    | ToolOutcome.raised e => e

/-- The `ToolMessage` the executor appends for one tool call. -/
def tool_message_for (exec : ToolExec) (token : String) (tc : ToolCall) : Message :=
  Message.toolMessage ("Function result is: " ++ tool_result_string exec token tc)
    tc.id tc.name

/-- Is this event a model invocation made by the limit node? -/
def isLimitNodeCall : Event → Bool
  | Event.modelCall true _ => true
  | _ => false

/-- No event of the trace is a limit-node model invocation. -/
def noLimitNodeCall (t : List Event) : Prop :=
  ∀ e ∈ t, isLimitNodeCall e = false

/-- Every iteration-limit check in the trace happens immediately after a
tool-results append (never at the start, never right after a model call). -/
def CheckAfterTools (t : List Event) : Prop :=
  ∀ i v, t[i]? = Option.some (Event.limitCheck v) →
    ∃ j k, i = j + 1 ∧ t[j]? = Option.some (Event.toolResultsAppended k)

/-- Python values appearing in the update-request JSON bodies. -/
inductive PyValue where
  | none
  | str (s : String)
  | bool (b : Bool)
  | int (n : Int)
deriving DecidableEq, Repr

/-- An outgoing HTTP request of an update tool (method, path, JSON body). -/
structure HttpRequest where
  method : String
  path : String
  body : List (String × PyValue)
deriving DecidableEq, Repr

/-- The dict comprehension `{field: data[field] for field in updated_fields}`:
fields are taken in order; a field absent from `data` raises `KeyError(field)`
(modelled as `Except.error field`). -/
def dict_comprehension {α : Type} (data : List (String × α)) :
    List String → Except String (List (String × α))
  | [] => Except.ok []
  | field :: rest =>
    match pyDictGet data field with
    | Option.none => Except.error field
    | Option.some v =>
      match dict_comprehension data rest with
      | Except.error e => Except.error e
      | Except.ok tail => Except.ok ((field, v) :: tail)

/-- Python `str | None` to JSON value. -/
def ofOptionStr : Option String → PyValue
  | Option.none => PyValue.none
  | Option.some s => PyValue.str s

/-- Python `int | None` to JSON value. -/
def ofOptionInt : Option Int → PyValue
  | Option.none => PyValue.none
  | Option.some n => PyValue.int n

/-- The `data` dict built by `update_task` from its keyword arguments. -/
def update_task_data (title description : Option String) (completed : Bool)
    (deadline : Option String) (collection_id : Option Int) :
    List (String × PyValue) :=
  [("title", ofOptionStr title),
   ("description", ofOptionStr description),
   ("completed", PyValue.bool completed),
   ("deadline", ofOptionStr deadline),
   ("collection_id", ofOptionInt collection_id)]

/-- Source `update_task`: build `data`, filter it down to `updated_fields`
(first raising `KeyError` on a name outside `data`), and only then issue
`PATCH tasks/{task_id}/update` with exactly the filtered body. -/
def update_task (task_id : Int) (updated_fields : List String)
    (title description : Option String) (completed : Bool)
    (deadline : Option String) (collection_id : Option Int) :
    Except String HttpRequest :=
  let data := update_task_data title description completed deadline collection_id
  match dict_comprehension data updated_fields with
  | Except.error f => Except.error f
  | Except.ok data_to_update =>
      Except.ok { method := "PATCH",
                  path := "tasks/" ++ toString task_id ++ "/update",
                  body := data_to_update }

/-- The `data` dict built by `update_collection` (only `name`). -/
def update_collection_data (name : Option String) : List (String × PyValue) :=
  [("name", ofOptionStr name)]

/-- Source `update_collection`: analogous to `update_task` with the single
field `name` and path `collections/{collection_id}/update`. -/
def update_collection (collection_id : Int) (updated_fields : List String)
    (name : Option String) : Except String HttpRequest :=
  let data := update_collection_data name
  match dict_comprehension data updated_fields with
  | Except.error f => Except.error f
  | Except.ok data_to_update =>
      Except.ok { method := "PATCH",
                  path := "collections/" ++ toString collection_id ++ "/update",
                  body := data_to_update }

instance {ε α : Type} [DecidableEq ε] [DecidableEq α] : DecidableEq (Except ε α) :=
  fun a b =>
    match a, b with
    | Except.ok x, Except.ok y =>
      if h : x = y then Decidable.isTrue (by rw [h])
      else Decidable.isFalse (by simp [h])
    | Except.error x, Except.error y =>
      if h : x = y then Decidable.isTrue (by rw [h])
      else Decidable.isFalse (by simp [h])
    | Except.ok _, Except.error _ => Decidable.isFalse (by simp)
    | Except.error _, Except.ok _ => Decidable.isFalse (by simp)

/-! Helper lemmas about the Python-dict model. -/

lemma pyDictGet_pyDictSet_self {α : Type} (a : List (String × α)) (k : String) (v : α) :
    pyDictGet (pyDictSet a k v) k = Option.some v := by
  induction a with
  | nil => simp [pyDictGet, pyDictSet]
  | cons p rest ih =>
    obtain ⟨k', v'⟩ := p
    by_cases h : k' = k
    · simp [pyDictGet, pyDictSet, h]
    · simp [pyDictGet, pyDictSet, h, ih]

lemma pyDictGet_pyDictSet_ne {α : Type} (a : List (String × α)) {k k' : String} (v : α)
    (h : k' ≠ k) : pyDictGet (pyDictSet a k v) k' = pyDictGet a k' := by
  induction a with
  | nil => simp [pyDictGet, pyDictSet, Ne.symm h]
  | cons p rest ih =>
    obtain ⟨k0, v0⟩ := p
    by_cases h0 : k0 = k
    · have hnk : ¬ k0 = k' := by rw [h0]; exact Ne.symm h
      simp [pyDictGet, pyDictSet, h0, hnk, Ne.symm h]
    · simp [pyDictGet, pyDictSet, h0, ih]

lemma pyDictGet_eq_none_of_not_mem {α : Type} {a : List (String × α)} {k : String}
    (h : k ∉ a.map Prod.fst) : pyDictGet a k = Option.none := by
  induction a with
  | nil => rfl
  | cons p rest ih =>
    obtain ⟨k', v'⟩ := p
    have h1 : ¬ k' = k := fun e => h (by simp [e])
    have h2 : k ∉ rest.map Prod.fst := fun hx => h (by simp [hx])
    simp [pyDictGet, h1, ih h2]

/-! Helper lemmas about tool-name resolution. -/

lemma get_function_by_name_ok_of_mem {name : String} (h : name ∈ catalogNames) :
    ∃ f, get_function_by_name name = Except.ok f := by
  have hc : catalogNames =
      ["create_task", "read_task", "task_list", "update_task", "delete_task",
       "create_collection", "read_collection", "collection_list",
       "update_collection", "delete_collection"] := rfl
  rw [hc] at h
  fin_cases h <;> exact ⟨_, rfl⟩

lemma lookup_eq_none_of_not_mem {α : Type} {k : String} {l : List (String × α)}
    (h : k ∉ l.map Prod.fst) : l.lookup k = Option.none := by
  induction l with
  | nil => rfl
  | cons p rest ih =>
    obtain ⟨k', v⟩ := p
    have h1 : ¬ k = k' := fun e => h (by simp [e])
    have h2 : k ∉ rest.map Prod.fst := fun hx => h (by simp [hx])
    have hb : (k == k') = false := beq_eq_false_iff_ne.mpr h1
    simp [List.lookup, hb, ih h2]

lemma get_function_by_name_not_impl {name : String} (h : name ∉ catalogNames) :
    get_function_by_name name =
      Except.error ("Function " ++ name ++ " is not implemented") := by
  have h' : name ∉ funcs.map Prod.fst := h
  unfold get_function_by_name
  rw [lookup_eq_none_of_not_mem h']

/-! Helper lemmas about the tool-execution loop. -/

lemma exec_tool_calls_eq_map (exec : ToolExec) (token : String) :
    ∀ (tcs : List ToolCall), (∀ tc ∈ tcs, tc.name ∈ catalogNames) →
      exec_tool_calls exec token tcs =
        Except.ok (tcs.map (tool_message_for exec token)) := by
  intro tcs
  induction tcs with
  | nil => intro _; rfl
  | cons tc rest ih =>
    intro h
    have hname := h tc (List.mem_cons_self tc rest)
    obtain ⟨f, hf⟩ := get_function_by_name_ok_of_mem hname
    have ihr := ih (fun x hx => h x (List.mem_cons_of_mem _ hx))
    simp only [exec_tool_calls, hf, ihr, List.map_cons, tool_message_for,
      tool_result_string]

lemma exec_tool_calls_error_of_unknown (exec : ToolExec) (token : String) :
    ∀ (tcs : List ToolCall) (tc : ToolCall), tc ∈ tcs → tc.name ∉ catalogNames →
      ∃ nm, nm ∉ catalogNames ∧
        exec_tool_calls exec token tcs =
          Except.error ("Function " ++ nm ++ " is not implemented") := by
  intro tcs
  induction tcs with
  | nil => intro tc h; cases h
  | cons hd rest ih =>
    intro tc hmem hunk
    by_cases hhd : hd.name ∈ catalogNames
    · obtain ⟨f, hf⟩ := get_function_by_name_ok_of_mem hhd
      have htc : tc ∈ rest := by
        rcases List.mem_cons.mp hmem with heq | h
        · exact absurd hhd (heq ▸ hunk)
        · exact h
      obtain ⟨nm, hnm, herr⟩ := ih tc htc hunk
      refine ⟨nm, hnm, ?_⟩
      simp only [exec_tool_calls, hf, herr]
    · exact ⟨hd.name, hhd, by simp only [exec_tool_calls, get_function_by_name_not_impl hhd]⟩

/-! Shape lemmas for the graph nodes. -/

lemma call_llm_with_tools_ok {model : ModelOracle} {st st' : ChatBotState}
    (h : call_llm_with_tools model st = Except.ok st') :
    st'.iterations = st.iterations - 1 ∧
    st'.trace = st.trace ++ [Event.modelCall false true] ∧
    st'.token = st.token ∧
    ∃ msg, st'.messages = st.messages ++ [msg] := by
  unfold call_llm_with_tools at h
  split at h
  · exact Except.noConfusion h
  · rename_i msg hm
    cases h
    exact ⟨rfl, rfl, rfl, msg, rfl⟩

lemma call_llm_with_tools_error {model : ModelOracle} {st : ChatBotState} {e : RunError}
    (h : call_llm_with_tools model st = Except.error e) :
    e = RunError.httpError 500 "Error while calling LLM"
      { st with trace := st.trace ++ [Event.modelCall false true] } := by
  unfold call_llm_with_tools at h
  split at h
  · cases h; rfl
  · exact Except.noConfusion h

lemma call_task_manager_api_ok {exec : ToolExec} {st st' : ChatBotState}
    (h : call_task_manager_api exec st = Except.ok st') :
    st'.iterations = st.iterations ∧
    st'.token = st.token ∧
    ∃ k, st'.trace = st.trace ++ [Event.toolResultsAppended k] := by
  unfold call_task_manager_api at h
  split at h
  · exact Except.noConfusion h
  · rename_i msgs hm
    cases h
    exact ⟨rfl, rfl, msgs.length, rfl⟩

lemma call_task_manager_api_error {exec : ToolExec} {st : ChatBotState} {e : RunError}
    (h : call_task_manager_api exec st = Except.error e) :
    ∃ m, e = RunError.notImplementedError m st := by
  unfold call_task_manager_api at h
  split at h
  · rename_i m hm
    cases h
    exact ⟨m, rfl⟩
  · exact Except.noConfusion h

lemma llm_generate_none_iff (wt : Bool) (r : ModelResp) :
    llm_generate wt r = Option.none ↔ isProviderError r = true := by
  cases r <;> simp [llm_generate, isProviderError]

lemma call_llm_ok_no_failure {model : ModelOracle} {st st' : ChatBotState}
    (h : call_llm_with_tools model st = Except.ok st') :
    isProviderError (model (countModelCalls st.trace)) = false := by
  unfold call_llm_with_tools at h
  cases hr : model (countModelCalls st.trace) with
  | resp c t => rfl
  | chatGoogleGenerativeAIError e =>
    rw [hr] at h
    exact Except.noConfusion h
  | langChainException e =>
    rw [hr] at h
    exact Except.noConfusion h

lemma call_llm_fail_error {model : ModelOracle} {st : ChatBotState}
    (h : isProviderError (model (countModelCalls st.trace)) = true) :
    call_llm_with_tools model st =
      Except.error (RunError.httpError 500 "Error while calling LLM"
        { st with trace := st.trace ++ [Event.modelCall false true] }) := by
  unfold call_llm_with_tools
  cases hr : model (countModelCalls st.trace) with
  | resp c t =>
    rw [hr] at h
    exact Bool.noConfusion h
  | chatGoogleGenerativeAIError e => rfl
  | langChainException e => rfl

lemma limit_fail_error {model : ModelOracle} {st : ChatBotState}
    (h : isProviderError (model (countModelCalls st.trace)) = true) :
    limit_llm_request_exceeded model st =
      Except.error (RunError.httpError 500 "Error while calling LLM"
        { st with trace := st.trace ++ [Event.modelCall true true] }) := by
  unfold limit_llm_request_exceeded
  cases hr : model (countModelCalls st.trace) with
  | resp c t =>
    rw [hr] at h
    exact Bool.noConfusion h
  | chatGoogleGenerativeAIError e => rfl
  | langChainException e => rfl

lemma limit_finalTrace (model : ModelOracle) (st : ChatBotState) :
    (finalState (limit_llm_request_exceeded model st)).trace =
      st.trace ++ [Event.modelCall true true] := by
  cases hr : llm_generate true (model (countModelCalls st.trace)) <;>
    simp [limit_llm_request_exceeded, hr, finalState]

lemma limit_llm_request_exceeded_ok {model : ModelOracle} {st st' : ChatBotState}
    (h : limit_llm_request_exceeded model st = Except.ok st') :
    st'.iterations = st.iterations ∧
    st'.trace = st.trace ++ [Event.modelCall true true] := by
  unfold limit_llm_request_exceeded at h
  split at h
  · exact Except.noConfusion h
  · cases h
    exact ⟨rfl, rfl⟩

/-! Counting model invocations in a trace. -/

lemma countModelCalls_append (t s : List Event) :
    countModelCalls (t ++ s) = countModelCalls t + countModelCalls s := by
  simp [countModelCalls, List.filter_append]

lemma countModelCalls_modelCall (f w : Bool) :
    countModelCalls [Event.modelCall f w] = 1 := rfl

lemma countModelCalls_toolResults (k : Nat) :
    countModelCalls [Event.toolResultsAppended k] = 0 := rfl

lemma countModelCalls_limitCheck (v : Int) :
    countModelCalls [Event.limitCheck v] = 0 := rfl

/-! One-step unfolding equations for `run_from_llm`. -/

lemma run_eq_of_llm_error {model : ModelOracle} {exec : ToolExec} {st : ChatBotState}
    {e : RunError} (h : call_llm_with_tools model st = Except.error e) :
    run_from_llm model exec st = Except.error e := by
  rw [run_from_llm.eq_def]
  split
  · rename_i e' he
    rw [h] at he
    cases he
    rfl
  · rename_i st1 h1
    rw [h] at h1
    exact Except.noConfusion h1

lemma run_eq_of_end {model : ModelOracle} {exec : ToolExec} {st st1 : ChatBotState}
    (h1 : call_llm_with_tools model st = Except.ok st1)
    (h2 : resolve_model_response st1 = "end") :
    run_from_llm model exec st = Except.ok st1 := by
  rw [run_from_llm.eq_def]
  split
  · rename_i e he
    rw [h1] at he
    exact Except.noConfusion he
  · rename_i st1' h1'
    rw [h1] at h1'
    cases h1'
    rw [if_pos h2]

lemma run_eq_of_api_error {model : ModelOracle} {exec : ToolExec} {st st1 : ChatBotState}
    {e : RunError} (h1 : call_llm_with_tools model st = Except.ok st1)
    (h2 : ¬ resolve_model_response st1 = "end")
    (h3 : call_task_manager_api exec st1 = Except.error e) :
    run_from_llm model exec st = Except.error e := by
  rw [run_from_llm.eq_def]
  split
  · rename_i e' he
    rw [h1] at he
    exact Except.noConfusion he
  · rename_i st1' h1'
    rw [h1] at h1'
    cases h1'
    rw [if_neg h2]
    split
    · rename_i e' he
      rw [h3] at he
      cases he
      rfl
    · rename_i st2 h2'
      rw [h3] at h2'
      exact Except.noConfusion h2'

lemma run_eq_of_loop {model : ModelOracle} {exec : ToolExec} {st st1 st2 : ChatBotState}
    (h1 : call_llm_with_tools model st = Except.ok st1)
    (h2 : ¬ resolve_model_response st1 = "end")
    (h3 : call_task_manager_api exec st1 = Except.ok st2)
    (h4 : check_gemini_limit_request st2 = "llm") :
    run_from_llm model exec st =
      run_from_llm model exec
        { st2 with trace := st2.trace ++ [Event.limitCheck st2.iterations] } := by
  rw [run_from_llm.eq_def]
  split
  · rename_i e he
    rw [h1] at he
    exact Except.noConfusion he
  · rename_i st1' h1'
    rw [h1] at h1'
    cases h1'
    rw [if_neg h2]
    split
    · rename_i e he
      rw [h3] at he
      exact Except.noConfusion he
    · rename_i st2' h3'
      rw [h3] at h3'
      cases h3'
      rw [dif_pos h4]

lemma run_eq_of_limit {model : ModelOracle} {exec : ToolExec} {st st1 st2 : ChatBotState}
    (h1 : call_llm_with_tools model st = Except.ok st1)
    (h2 : ¬ resolve_model_response st1 = "end")
    (h3 : call_task_manager_api exec st1 = Except.ok st2)
    (h4 : ¬ check_gemini_limit_request st2 = "llm") :
    run_from_llm model exec st =
      limit_llm_request_exceeded model
        { st2 with trace := st2.trace ++ [Event.limitCheck st2.iterations] } := by
  rw [run_from_llm.eq_def]
  split
  · rename_i e he
    rw [h1] at he
    exact Except.noConfusion he
  · rename_i st1' h1'
    rw [h1] at h1'
    cases h1'
    rw [if_neg h2]
    split
    · rename_i e he
      rw [h3] at he
      exact Except.noConfusion he
    · rename_i st2' h3'
      rw [h3] at h3'
      cases h3'
      rw [dif_neg h4]

/-! Lemmas about the ghost-trace predicates. -/

lemma lt_length_of_getElem?_eq_some {α : Type} {l : List α} {i : Nat} {a : α}
    (h : l[i]? = Option.some a) : i < l.length := by
  by_contra hn
  rw [List.getElem?_eq_none (by omega)] at h
  cases h

lemma noLimitNodeCall_append {t s : List Event} (ht : noLimitNodeCall t)
    (hs : ∀ e ∈ s, isLimitNodeCall e = false) : noLimitNodeCall (t ++ s) := by
  intro e he
  rcases List.mem_append.mp he with h | h
  · exact ht e h
  · exact hs e h

lemma checkAfterTools_append_single {t : List Event} {x : Event}
    (ht : CheckAfterTools t) (hx : ∀ v, x ≠ Event.limitCheck v) :
    CheckAfterTools (t ++ [x]) := by
  intro i v hi
  have hlen : i < t.length + 1 := by
    have := lt_length_of_getElem?_eq_some hi
    simpa using this
  by_cases h : i < t.length
  · rw [List.getElem?_append_left h] at hi
    obtain ⟨j, k, hj1, hj2⟩ := ht i v hi
    have hjlen : j < t.length := lt_length_of_getElem?_eq_some hj2
    exact ⟨j, k, hj1, by rw [List.getElem?_append_left hjlen]; exact hj2⟩
  · have hit : i = t.length := by omega
    subst hit
    rw [List.getElem?_append_right (Nat.le_refl _)] at hi
    simp [Nat.sub_self] at hi
    exact absurd hi (hx v)

lemma checkAfterTools_append_pair {t : List Event} (ht : CheckAfterTools t)
    (k : Nat) (v : Int) :
    CheckAfterTools (t ++ [Event.toolResultsAppended k, Event.limitCheck v]) := by
  intro i w hi
  have hlen : i < t.length + 2 := by
    have := lt_length_of_getElem?_eq_some hi
    simpa using this
  by_cases h : i < t.length
  · rw [List.getElem?_append_left h] at hi
    obtain ⟨j, k', hj1, hj2⟩ := ht i w hi
    have hjlen : j < t.length := lt_length_of_getElem?_eq_some hj2
    exact ⟨j, k', hj1, by rw [List.getElem?_append_left hjlen]; exact hj2⟩
  · by_cases h2 : i = t.length
    · subst h2
      rw [List.getElem?_append_right (Nat.le_refl _)] at hi
      simp [Nat.sub_self] at hi
    · have h3 : i = t.length + 1 := by omega
      subst h3
      refine ⟨t.length, k, rfl, ?_⟩
      rw [List.getElem?_append_right (Nat.le_refl _)]
      simp [Nat.sub_self]

lemma check_eq_llm_iff (st : ChatBotState) :
    check_gemini_limit_request st = "llm" ↔ ¬ st.iterations ≤ 0 := by
  constructor
  · intro he hle
    rw [check_gemini_limit_request, if_pos hle] at he
    exact absurd he (by decide)
  · intro hgt
    rw [check_gemini_limit_request, if_neg hgt]

lemma check_eq_limit_iff (st : ChatBotState) :
    check_gemini_limit_request st = "limit_llm_request" ↔ st.iterations ≤ 0 := by
  constructor
  · intro he
    by_contra hgt
    rw [check_gemini_limit_request, if_neg hgt] at he
    exact absurd he (by decide)
  · intro hle
    rw [check_gemini_limit_request, if_pos hle]

/-! Run-level structural lemmas, by functional induction on `run_from_llm`. -/

lemma run_trace_structure (model : ModelOracle) (exec : ToolExec) (st : ChatBotState) :
    (noLimitNodeCall st.trace →
      noLimitNodeCall (runTrace model exec st) ∨
      ∃ t, runTrace model exec st = t ++ [Event.modelCall true true] ∧
        noLimitNodeCall t) ∧
    (CheckAfterTools st.trace → CheckAfterTools (runTrace model exec st)) := by
  refine run_from_llm.induct model exec
    (fun st => (noLimitNodeCall st.trace →
      noLimitNodeCall (runTrace model exec st) ∨
      ∃ t, runTrace model exec st = t ++ [Event.modelCall true true] ∧
        noLimitNodeCall t) ∧
    (CheckAfterTools st.trace → CheckAfterTools (runTrace model exec st)))
    ?_ ?_ ?_ ?_ ?_ st
  · intro x e he
    have hsh := call_llm_with_tools_error he
    have hrun : run_from_llm model exec x = Except.error e := run_eq_of_llm_error he
    have htr : runTrace model exec x = x.trace ++ [Event.modelCall false true] := by
      unfold runTrace
      rw [hrun, hsh]
      rfl
    refine ⟨fun hnl => Or.inl ?_, fun hct => ?_⟩
    · rw [htr]
      exact noLimitNodeCall_append hnl
        (by intro e' he'; rw [List.mem_singleton] at he'; subst he'; rfl)
    · rw [htr]
      exact checkAfterTools_append_single hct (fun v hv => Event.noConfusion hv)
  · intro x st1 h1 h2
    obtain ⟨_, htr1, _, _⟩ := call_llm_with_tools_ok h1
    have hrun : run_from_llm model exec x = Except.ok st1 := run_eq_of_end h1 h2
    have htr : runTrace model exec x = x.trace ++ [Event.modelCall false true] := by
      unfold runTrace
      rw [hrun]
      exact htr1
    refine ⟨fun hnl => Or.inl ?_, fun hct => ?_⟩
    · rw [htr]
      exact noLimitNodeCall_append hnl
        (by intro e' he'; rw [List.mem_singleton] at he'; subst he'; rfl)
    · rw [htr]
      exact checkAfterTools_append_single hct (fun v hv => Event.noConfusion hv)
  · intro x st1 h1 h2 e h3
    obtain ⟨_, htr1, _, _⟩ := call_llm_with_tools_ok h1
    obtain ⟨m, hm⟩ := call_task_manager_api_error h3
    have hrun : run_from_llm model exec x = Except.error e := run_eq_of_api_error h1 h2 h3
    have htr : runTrace model exec x = x.trace ++ [Event.modelCall false true] := by
      unfold runTrace
      rw [hrun, hm]
      exact htr1
    refine ⟨fun hnl => Or.inl ?_, fun hct => ?_⟩
    · rw [htr]
      exact noLimitNodeCall_append hnl
        (by intro e' he'; rw [List.mem_singleton] at he'; subst he'; rfl)
    · rw [htr]
      exact checkAfterTools_append_single hct (fun v hv => Event.noConfusion hv)
  · intro x st1 h1 h2 st2 h3 h4 IH
    obtain ⟨hit1, htr1, _, _⟩ := call_llm_with_tools_ok h1
    obtain ⟨hit2, _, k, htr2⟩ := call_task_manager_api_ok h3
    have hrun := run_eq_of_loop h1 h2 h3 h4
    have htr' : ({ st2 with trace := st2.trace ++ [Event.limitCheck st2.iterations] } :
        ChatBotState).trace =
        x.trace ++ [Event.modelCall false true] ++ [Event.toolResultsAppended k] ++
          [Event.limitCheck st2.iterations] := by
      show st2.trace ++ [Event.limitCheck st2.iterations] = _
      rw [htr2, htr1]
    have hrt : runTrace model exec x =
        runTrace model exec
          { st2 with trace := st2.trace ++ [Event.limitCheck st2.iterations] } := by
      unfold runTrace
      rw [hrun]
    constructor
    · intro hnl
      have hnl' : noLimitNodeCall
          ({ st2 with trace := st2.trace ++ [Event.limitCheck st2.iterations] } :
            ChatBotState).trace := by
        rw [htr']
        refine noLimitNodeCall_append
          (noLimitNodeCall_append (noLimitNodeCall_append hnl ?_) ?_) ?_ <;>
          (intro e' he'; rw [List.mem_singleton] at he'; subst he'; rfl)
      rw [hrt]
      exact IH.1 hnl'
    · intro hct
      have hct' : CheckAfterTools
          ({ st2 with trace := st2.trace ++ [Event.limitCheck st2.iterations] } :
            ChatBotState).trace := by
        rw [htr']
        have e1 : x.trace ++ [Event.modelCall false true] ++
            [Event.toolResultsAppended k] ++ [Event.limitCheck st2.iterations] =
            (x.trace ++ [Event.modelCall false true]) ++
              [Event.toolResultsAppended k, Event.limitCheck st2.iterations] := by
          simp
        rw [e1]
        exact checkAfterTools_append_pair
          (checkAfterTools_append_single hct (fun v hv => Event.noConfusion hv)) k
          st2.iterations
      rw [hrt]
      exact IH.2 hct'
  · intro x st1 h1 h2 st2 h3 h4
    obtain ⟨hit1, htr1, _, _⟩ := call_llm_with_tools_ok h1
    obtain ⟨hit2, _, k, htr2⟩ := call_task_manager_api_ok h3
    have hrun := run_eq_of_limit h1 h2 h3 h4
    have htr' : ({ st2 with trace := st2.trace ++ [Event.limitCheck st2.iterations] } :
        ChatBotState).trace =
        x.trace ++ [Event.modelCall false true] ++ [Event.toolResultsAppended k] ++
          [Event.limitCheck st2.iterations] := by
      show st2.trace ++ [Event.limitCheck st2.iterations] = _
      rw [htr2, htr1]
    have hrt : runTrace model exec x =
        ({ st2 with trace := st2.trace ++ [Event.limitCheck st2.iterations] } :
          ChatBotState).trace ++ [Event.modelCall true true] := by
      unfold runTrace
      rw [hrun]
      exact limit_finalTrace model _
    constructor
    · intro hnl
      refine Or.inr ⟨_, hrt, ?_⟩
      rw [htr']
      refine noLimitNodeCall_append
        (noLimitNodeCall_append (noLimitNodeCall_append hnl ?_) ?_) ?_ <;>
        (intro e' he'; rw [List.mem_singleton] at he'; subst he'; rfl)
    · intro hct
      rw [hrt]
      refine checkAfterTools_append_single ?_ (fun v hv => Event.noConfusion hv)
      rw [htr']
      have e1 : x.trace ++ [Event.modelCall false true] ++
          [Event.toolResultsAppended k] ++ [Event.limitCheck st2.iterations] =
          (x.trace ++ [Event.modelCall false true]) ++
            [Event.toolResultsAppended k, Event.limitCheck st2.iterations] := by
        simp
      rw [e1]
      exact checkAfterTools_append_pair
        (checkAfterTools_append_single hct (fun v hv => Event.noConfusion hv)) k
        st2.iterations

lemma run_count_bound (model : ModelOracle) (exec : ToolExec) (st : ChatBotState) :
    1 ≤ st.iterations →
      countModelCalls (runTrace model exec st) ≤
        countModelCalls st.trace + st.iterations.toNat + 1 ∧
      (countModelCalls (runTrace model exec st) =
          countModelCalls st.trace + st.iterations.toNat + 1 →
        (runTrace model exec st).getLast? = Option.some (Event.modelCall true true)) := by
  refine run_from_llm.induct model exec
    (fun st => 1 ≤ st.iterations →
      countModelCalls (runTrace model exec st) ≤
        countModelCalls st.trace + st.iterations.toNat + 1 ∧
      (countModelCalls (runTrace model exec st) =
          countModelCalls st.trace + st.iterations.toNat + 1 →
        (runTrace model exec st).getLast? = Option.some (Event.modelCall true true)))
    ?_ ?_ ?_ ?_ ?_ st
  · intro x e he hiter
    have hsh := call_llm_with_tools_error he
    have hrun : run_from_llm model exec x = Except.error e := run_eq_of_llm_error he
    have htr : runTrace model exec x = x.trace ++ [Event.modelCall false true] := by
      unfold runTrace
      rw [hrun, hsh]
      rfl
    rw [htr, countModelCalls_append, countModelCalls_modelCall]
    constructor
    · omega
    · intro heq
      exfalso
      omega
  · intro x st1 h1 h2 hiter
    obtain ⟨_, htr1, _, _⟩ := call_llm_with_tools_ok h1
    have hrun : run_from_llm model exec x = Except.ok st1 := run_eq_of_end h1 h2
    have htr : runTrace model exec x = x.trace ++ [Event.modelCall false true] := by
      unfold runTrace
      rw [hrun]
      exact htr1
    rw [htr, countModelCalls_append, countModelCalls_modelCall]
    constructor
    · omega
    · intro heq
      exfalso
      omega
  · intro x st1 h1 h2 e h3 hiter
    obtain ⟨_, htr1, _, _⟩ := call_llm_with_tools_ok h1
    obtain ⟨m, hm⟩ := call_task_manager_api_error h3
    have hrun : run_from_llm model exec x = Except.error e := run_eq_of_api_error h1 h2 h3
    have htr : runTrace model exec x = x.trace ++ [Event.modelCall false true] := by
      unfold runTrace
      rw [hrun, hm]
      exact htr1
    rw [htr, countModelCalls_append, countModelCalls_modelCall]
    constructor
    · omega
    · intro heq
      exfalso
      omega
  · intro x st1 h1 h2 st2 h3 h4 IH hiter
    obtain ⟨hit1, htr1, _, _⟩ := call_llm_with_tools_ok h1
    obtain ⟨hit2, _, k, htr2⟩ := call_task_manager_api_ok h3
    have hgt : ¬ st2.iterations ≤ 0 := (check_eq_llm_iff st2).mp h4
    have hrun := run_eq_of_loop h1 h2 h3 h4
    have hit' : ({ st2 with trace := st2.trace ++ [Event.limitCheck st2.iterations] } :
        ChatBotState).iterations = st2.iterations := rfl
    have hiter' : (1 : Int) ≤
        ({ st2 with trace := st2.trace ++ [Event.limitCheck st2.iterations] } :
          ChatBotState).iterations := by
      rw [hit']
      omega
    have hIH := IH hiter'
    have htr' : ({ st2 with trace := st2.trace ++ [Event.limitCheck st2.iterations] } :
        ChatBotState).trace =
        x.trace ++ [Event.modelCall false true] ++ [Event.toolResultsAppended k] ++
          [Event.limitCheck st2.iterations] := by
      show st2.trace ++ [Event.limitCheck st2.iterations] = _
      rw [htr2, htr1]
    have hcount : countModelCalls
        ({ st2 with trace := st2.trace ++ [Event.limitCheck st2.iterations] } :
          ChatBotState).trace = countModelCalls x.trace + 1 := by
      rw [htr']
      simp [countModelCalls_append, countModelCalls_modelCall,
        countModelCalls_toolResults, countModelCalls_limitCheck]
      rfl
    have hrt : runTrace model exec x =
        runTrace model exec
          { st2 with trace := st2.trace ++ [Event.limitCheck st2.iterations] } := by
      unfold runTrace
      rw [hrun]
    rw [hrt]
    rw [hit'] at hIH
    rw [hcount] at hIH
    obtain ⟨hb, heqcase⟩ := hIH
    constructor
    · omega
    · intro heq
      apply heqcase
      omega
  · intro x st1 h1 h2 st2 h3 h4 hiter
    obtain ⟨hit1, htr1, _, _⟩ := call_llm_with_tools_ok h1
    obtain ⟨hit2, _, k, htr2⟩ := call_task_manager_api_ok h3
    have hrun := run_eq_of_limit h1 h2 h3 h4
    have htr' : ({ st2 with trace := st2.trace ++ [Event.limitCheck st2.iterations] } :
        ChatBotState).trace =
        x.trace ++ [Event.modelCall false true] ++ [Event.toolResultsAppended k] ++
          [Event.limitCheck st2.iterations] := by
      show st2.trace ++ [Event.limitCheck st2.iterations] = _
      rw [htr2, htr1]
    have hrt : runTrace model exec x =
        ({ st2 with trace := st2.trace ++ [Event.limitCheck st2.iterations] } :
          ChatBotState).trace ++ [Event.modelCall true true] := by
      unfold runTrace
      rw [hrun]
      exact limit_finalTrace model _
    have hcount : countModelCalls (runTrace model exec x) =
        countModelCalls x.trace + 2 := by
      rw [hrt, htr']
      simp [countModelCalls_append, countModelCalls_modelCall,
        countModelCalls_toolResults, countModelCalls_limitCheck]
      rfl
    constructor
    · omega
    · intro _
      rw [hrt]
      exact List.getLast?_concat _

lemma run_failure_fatal (model : ModelOracle) (exec : ToolExec) (st : ChatBotState) :
    (∃ i, countModelCalls st.trace ≤ i ∧
      i < countModelCalls (runTrace model exec st) ∧
      isProviderError (model i) = true) →
    ∃ stSnap, run_from_llm model exec st =
      Except.error (RunError.httpError 500 "Error while calling LLM" stSnap) := by
  refine run_from_llm.induct model exec
    (fun st => (∃ i, countModelCalls st.trace ≤ i ∧
      i < countModelCalls (runTrace model exec st) ∧
      isProviderError (model i) = true) →
    ∃ stSnap, run_from_llm model exec st =
      Except.error (RunError.httpError 500 "Error while calling LLM" stSnap))
    ?_ ?_ ?_ ?_ ?_ st
  · intro x e he _
    refine ⟨{ x with trace := x.trace ++ [Event.modelCall false true] }, ?_⟩
    rw [run_eq_of_llm_error he, call_llm_with_tools_error he]
  · intro x st1 h1 h2 hyp
    obtain ⟨i, hlo, hhi, hf⟩ := hyp
    obtain ⟨_, htr1, _, _⟩ := call_llm_with_tools_ok h1
    have hrun : run_from_llm model exec x = Except.ok st1 := run_eq_of_end h1 h2
    have htr : runTrace model exec x = x.trace ++ [Event.modelCall false true] := by
      unfold runTrace
      rw [hrun]
      exact htr1
    rw [htr, countModelCalls_append, countModelCalls_modelCall] at hhi
    have hieq : i = countModelCalls x.trace := by omega
    rw [hieq] at hf
    rw [call_llm_ok_no_failure h1] at hf
    exact Bool.noConfusion hf
  · intro x st1 h1 h2 e h3 hyp
    obtain ⟨i, hlo, hhi, hf⟩ := hyp
    obtain ⟨_, htr1, _, _⟩ := call_llm_with_tools_ok h1
    obtain ⟨m, hm⟩ := call_task_manager_api_error h3
    have hrun : run_from_llm model exec x = Except.error e :=
      run_eq_of_api_error h1 h2 h3
    have htr : runTrace model exec x = x.trace ++ [Event.modelCall false true] := by
      unfold runTrace
      rw [hrun, hm]
      exact htr1
    rw [htr, countModelCalls_append, countModelCalls_modelCall] at hhi
    have hieq : i = countModelCalls x.trace := by omega
    rw [hieq] at hf
    rw [call_llm_ok_no_failure h1] at hf
    exact Bool.noConfusion hf
  · intro x st1 h1 h2 st2 h3 h4 IH hyp
    obtain ⟨i, hlo, hhi, hf⟩ := hyp
    obtain ⟨hit1, htr1, _, _⟩ := call_llm_with_tools_ok h1
    obtain ⟨hit2, _, k, htr2⟩ := call_task_manager_api_ok h3
    have hrun := run_eq_of_loop h1 h2 h3 h4
    have htr' : ({ st2 with trace := st2.trace ++ [Event.limitCheck st2.iterations] } :
        ChatBotState).trace =
        x.trace ++ [Event.modelCall false true] ++ [Event.toolResultsAppended k] ++
          [Event.limitCheck st2.iterations] := by
      show st2.trace ++ [Event.limitCheck st2.iterations] = _
      rw [htr2, htr1]
    have hcount : countModelCalls
        ({ st2 with trace := st2.trace ++ [Event.limitCheck st2.iterations] } :
          ChatBotState).trace = countModelCalls x.trace + 1 := by
      rw [htr']
      simp [countModelCalls_append, countModelCalls_modelCall,
        countModelCalls_toolResults, countModelCalls_limitCheck]
      rfl
    have hrt : runTrace model exec x =
        runTrace model exec
          { st2 with trace := st2.trace ++ [Event.limitCheck st2.iterations] } := by
      unfold runTrace
      rw [hrun]
    by_cases hic : i = countModelCalls x.trace
    · rw [hic] at hf
      rw [call_llm_ok_no_failure h1] at hf
      exact Bool.noConfusion hf
    · rw [hrt] at hhi
      have hge : countModelCalls
          ({ st2 with trace := st2.trace ++ [Event.limitCheck st2.iterations] } :
            ChatBotState).trace ≤ i := by
        rw [hcount]
        omega
      obtain ⟨snap, hsnap⟩ := IH ⟨i, hge, hhi, hf⟩
      exact ⟨snap, by rw [hrun]; exact hsnap⟩
  · intro x st1 h1 h2 st2 h3 h4 hyp
    obtain ⟨i, hlo, hhi, hf⟩ := hyp
    obtain ⟨hit1, htr1, _, _⟩ := call_llm_with_tools_ok h1
    obtain ⟨hit2, _, k, htr2⟩ := call_task_manager_api_ok h3
    have hrun := run_eq_of_limit h1 h2 h3 h4
    have htr' : ({ st2 with trace := st2.trace ++ [Event.limitCheck st2.iterations] } :
        ChatBotState).trace =
        x.trace ++ [Event.modelCall false true] ++ [Event.toolResultsAppended k] ++
          [Event.limitCheck st2.iterations] := by
      show st2.trace ++ [Event.limitCheck st2.iterations] = _
      rw [htr2, htr1]
    have hcount : countModelCalls
        ({ st2 with trace := st2.trace ++ [Event.limitCheck st2.iterations] } :
          ChatBotState).trace = countModelCalls x.trace + 1 := by
      rw [htr']
      simp [countModelCalls_append, countModelCalls_modelCall,
        countModelCalls_toolResults, countModelCalls_limitCheck]
      rfl
    have hrt : runTrace model exec x =
        ({ st2 with trace := st2.trace ++ [Event.limitCheck st2.iterations] } :
          ChatBotState).trace ++ [Event.modelCall true true] := by
      unfold runTrace
      rw [hrun]
      exact limit_finalTrace model _
    rw [hrt, countModelCalls_append, countModelCalls_modelCall, hcount] at hhi
    by_cases hic : i = countModelCalls x.trace
    · rw [hic] at hf
      rw [call_llm_ok_no_failure h1] at hf
      exact Bool.noConfusion hf
    · have hieq : i = countModelCalls x.trace + 1 := by omega
      have hf' : isProviderError (model (countModelCalls
          ({ st2 with trace := st2.trace ++ [Event.limitCheck st2.iterations] } :
            ChatBotState).trace)) = true := by
        rw [hcount, ← hieq]
        exact hf
      refine ⟨{ ({ st2 with trace := st2.trace ++ [Event.limitCheck st2.iterations] } :
          ChatBotState) with
        trace := ({ st2 with trace := st2.trace ++ [Event.limitCheck st2.iterations] } :
          ChatBotState).trace ++ [Event.modelCall true true] }, ?_⟩
      rw [hrun, limit_fail_error hf']

/-! Lemmas about the field-filtering dict comprehension of the update tools. -/

lemma pyDictGet_isSome_iff {α : Type} (a : List (String × α)) (f : String) :
    (pyDictGet a f).isSome ↔ f ∈ a.map Prod.fst := by
  induction a with
  | nil => simp [pyDictGet]
  | cons p rest ih =>
    obtain ⟨k, v⟩ := p
    by_cases h : k = f
    · simp [pyDictGet, h]
    · have h' : ¬ f = k := fun e => h e.symm
      simp [pyDictGet, h, h', ih]

lemma dict_comprehension_error {α : Type} (data : List (String × α)) :
    ∀ (fields : List String) (f0 : String), f0 ∈ fields →
      pyDictGet data f0 = Option.none →
      ∃ g, pyDictGet data g = Option.none ∧
        dict_comprehension data fields = Except.error g := by
  intro fields
  induction fields with
  | nil => intro f0 h; cases h
  | cons f fs ih =>
    intro f0 hmem hnone
    cases hv : pyDictGet data f with
    | none => exact ⟨f, hv, by simp only [dict_comprehension, hv]⟩
    | some v =>
      have hf0 : f0 ∈ fs := by
        rcases List.mem_cons.mp hmem with heq | h
        · subst heq
          rw [hv] at hnone
          exact Option.noConfusion hnone
        · exact h
      obtain ⟨g, hg, herr⟩ := ih f0 hf0 hnone
      exact ⟨g, hg, by simp only [dict_comprehension, hv, herr]⟩

/-! Claim theorems. -/

/-- C1 counterexample: on the LimitReached path the forced model invocation is
made through `llm_generate` with `with_tools` left at its source default
`True`, i.e. with the tool-bound model — the recorded invocation event carries
the flag `true`, not the `false` ("non-tool-bound model") the claim asserts. -/
theorem c1_counterexample :
    (finalState (limit_llm_request_exceeded (fun _ => ModelResp.resp "done" [])
        { messages := [Message.human "hi"], iterations := 0, response := "",
          token := "tok", trace := [] })).trace = [Event.modelCall true true] ∧
    Event.modelCall true true ≠ Event.modelCall true false :=
  ⟨by decide, by decide⟩

/-- C1 (amended): on the LimitReached path the forced final model invocation
is made with the tool-bound model (`with_tools` defaults to `True` in
`llm_generate` and `limit_llm_request_exceeded` does not override it); the
recorded limit-node invocation event is always `modelCall true true`.
Nevertheless, no tool-call-shaped content of that response is ever executed:
in every run, either no limit-node invocation occurs, or it is the very last
event of the run's trace — nothing (in particular no tool execution, which
always records an event) happens after it, as `limit_llm_request`'s only
outgoing edge is to `END`. -/
theorem c1_limit_call_tool_bound_but_terminal (model : ModelOracle)
    (exec : ToolExec) (n : Int) (token : String) (msgs : List Message) :
    (∀ st : ChatBotState,
      (finalState (limit_llm_request_exceeded model st)).trace =
        st.trace ++ [Event.modelCall true true]) ∧
    (noLimitNodeCall (runTrace model exec (initial_state n token msgs)) ∨
      ∃ t, runTrace model exec (initial_state n token msgs) =
        t ++ [Event.modelCall true true] ∧ noLimitNodeCall t) := by
  constructor
  · exact limit_finalTrace model
  · apply (run_trace_structure model exec (initial_state n token msgs)).1
    intro e he
    exact absurd he (List.not_mem_nil e)

/-- C2: for every iteration budget N ≥ 1 and every sequence of model
responses (with or without tool calls, or failures) and tool outcomes, a run
of the graph terminates (`run_from_llm` is a total function accepted by the
termination checker) and records at most N+1 model invocations; when a run
reaches N+1 invocations, its last invocation is the limit-node one (the
LimitReached path). -/
theorem c2_termination_bound (model : ModelOracle) (exec : ToolExec) (n : Int)
    (token : String) (msgs : List Message) (h : 1 ≤ n) :
    countModelCalls (runTrace model exec (initial_state n token msgs)) ≤
      n.toNat + 1 ∧
    (countModelCalls (runTrace model exec (initial_state n token msgs)) =
        n.toNat + 1 →
      (runTrace model exec (initial_state n token msgs)).getLast? =
        Option.some (Event.modelCall true true)) := by
  have hb := run_count_bound model exec (initial_state n token msgs) h
  have h0 : countModelCalls (initial_state n token msgs).trace = 0 := rfl
  have h1 : (initial_state n token msgs).iterations = n := rfl
  rw [h0, h1] at hb
  simpa using hb

/-- C2 witness: a concrete budget-1 run satisfies the bound. -/
theorem c2_termination_bound_witness :
    (1 : Int) ≤ 1 ∧
    (countModelCalls (runTrace (fun _ => ModelResp.resp "hi" [])
        (fun _ _ => ToolOutcome.ok "r")
        (initial_state 1 "tok" [Message.human "q"])) ≤ (1 : Int).toNat + 1 ∧
    (countModelCalls (runTrace (fun _ => ModelResp.resp "hi" [])
        (fun _ _ => ToolOutcome.ok "r")
        (initial_state 1 "tok" [Message.human "q"])) = (1 : Int).toNat + 1 →
      (runTrace (fun _ => ModelResp.resp "hi" [])
        (fun _ _ => ToolOutcome.ok "r")
        (initial_state 1 "tok" [Message.human "q"])).getLast? =
        Option.some (Event.modelCall true true))) :=
  ⟨by decide,
   c2_termination_bound (fun _ => ModelResp.resp "hi" [])
     (fun _ _ => ToolOutcome.ok "r") 1 "tok" [Message.human "q"] (by decide)⟩

/-- C3: a tool-execution exception never aborts the run: for any turn whose
tool-call names are all in the catalog, if the i-th resolved tool function
raises, the executor still returns all tool messages (one per call), the i-th
`ToolMessage` carries the exception text as its non-empty content (prefixed
with "Function result is: "), and after the tool step the router can only go
to the next model turn or to the limit node. -/
theorem c3_failure_containment (exec : ToolExec) (token : String)
    (tcs : List ToolCall) (i : Nat) (tci : ToolCall) (f : ToolFn) (e : String)
    (hall : ∀ tc ∈ tcs, tc.name ∈ catalogNames)
    (hi : tcs[i]? = Option.some tci)
    (hf : get_function_by_name tci.name = Except.ok f)
    (he : exec f (pyDictSet tci.args "token" token) = ToolOutcome.raised e) :
    ∃ ms, exec_tool_calls exec token tcs = Except.ok ms ∧
      ms.length = tcs.length ∧
      ms[i]? = Option.some (Message.toolMessage ("Function result is: " ++ e)
        tci.id tci.name) ∧
      ("Function result is: " ++ e) ≠ "" ∧
      (∀ st : ChatBotState, check_gemini_limit_request st = "llm" ∨
        check_gemini_limit_request st = "limit_llm_request") := by
  refine ⟨tcs.map (tool_message_for exec token),
    exec_tool_calls_eq_map exec token tcs hall, by simp, ?_, ?_, ?_⟩
  · rw [List.getElem?_map, hi]
    simp only [Option.map_some']
    simp only [tool_message_for, tool_result_string, hf, he]
  · intro hemp
    have h2 := congrArg String.length hemp
    rw [String.length_append] at h2
    have h3 : ("Function result is: ").length = 20 := rfl
    have h4 : ("" : String).length = 0 := rfl
    omega
  · intro st
    by_cases hle : st.iterations ≤ 0
    · exact Or.inr ((check_eq_limit_iff st).mpr hle)
    · exact Or.inl ((check_eq_llm_iff st).mpr hle)

/-- C3 witness: a single failing `task_list` call is contained. -/
theorem c3_failure_containment_witness :
    ((∀ tc ∈ [ToolCall.mk "1" "task_list" [("offset", "0")]],
        tc.name ∈ catalogNames) ∧
      ([ToolCall.mk "1" "task_list" [("offset", "0")]])[0]? =
        Option.some (ToolCall.mk "1" "task_list" [("offset", "0")]) ∧
      get_function_by_name "task_list" = Except.ok ToolFn.task_list ∧
      (fun (_ : ToolFn) (_ : List (String × String)) =>
        ToolOutcome.raised "HTTP 500") ToolFn.task_list
        (pyDictSet [("offset", "0")] "token" "tok") =
        ToolOutcome.raised "HTTP 500") ∧
    ∃ ms, exec_tool_calls
        (fun _ _ => ToolOutcome.raised "HTTP 500") "tok"
        [ToolCall.mk "1" "task_list" [("offset", "0")]] = Except.ok ms ∧
      ms.length = ([ToolCall.mk "1" "task_list" [("offset", "0")]]).length ∧
      ms[0]? = Option.some (Message.toolMessage
        ("Function result is: " ++ "HTTP 500") "1" "task_list") ∧
      ("Function result is: " ++ "HTTP 500") ≠ "" ∧
      (∀ st : ChatBotState, check_gemini_limit_request st = "llm" ∨
        check_gemini_limit_request st = "limit_llm_request") :=
  ⟨⟨by decide, by decide, by rfl, by rfl⟩,
   c3_failure_containment (fun _ _ => ToolOutcome.raised "HTTP 500") "tok"
     [ToolCall.mk "1" "task_list" [("offset", "0")]] 0
     (ToolCall.mk "1" "task_list" [("offset", "0")]) ToolFn.task_list "HTTP 500"
     (by decide) (by decide) (by rfl) (by rfl)⟩

/-- C4: a tool call whose name is outside the ten catalog names makes
`get_function_by_name` fail with `NotImplementedError`; being raised outside
the executor's `try` block, the failure propagates: the executor returns no
tool messages, and the whole run aborts with that error instead of appending
a `ToolResult` or silently skipping the call. -/
theorem c4_unknown_tool_aborts (exec : ToolExec) (token : String)
    (tcs : List ToolCall) (tc : ToolCall) (content : String)
    (hmem : tc ∈ tcs) (hunk : tc.name ∉ catalogNames) :
    (∃ nm, nm ∉ catalogNames ∧
      exec_tool_calls exec token tcs =
        Except.error ("Function " ++ nm ++ " is not implemented")) ∧
    (∀ (model : ModelOracle) (st st1 : ChatBotState),
      call_llm_with_tools model st = Except.ok st1 →
      lastMessage st1.messages = Message.assistant content tcs →
      ∃ nm, nm ∉ catalogNames ∧
        run_from_llm model exec st =
          Except.error (RunError.notImplementedError
            ("Function " ++ nm ++ " is not implemented") st1)) := by
  constructor
  · exact exec_tool_calls_error_of_unknown exec token tcs tc hmem hunk
  · intro model st st1 h1 hlast
    obtain ⟨nm, hnm, herr⟩ :=
      exec_tool_calls_error_of_unknown exec st1.token tcs tc hmem hunk
    have hpos : tcs.length > 0 :=
      List.length_pos.mpr (fun hnil => by subst hnil; cases hmem)
    have h2 : ¬ resolve_model_response st1 = "end" := by
      unfold resolve_model_response
      rw [hlast]
      simp only [tool_calls_of]
      rw [if_pos hpos]
      decide
    have h3 : call_task_manager_api exec st1 =
        Except.error (RunError.notImplementedError
          ("Function " ++ nm ++ " is not implemented") st1) := by
      unfold call_task_manager_api
      rw [hlast]
      simp only [tool_calls_of]
      rw [herr]
    exact ⟨nm, hnm, run_eq_of_api_error h1 h2 h3⟩

/-- C4 witness: a `write_email` request is rejected by resolution. -/
theorem c4_unknown_tool_aborts_witness :
    (ToolCall.mk "7" "write_email" [] ∈ [ToolCall.mk "7" "write_email" []] ∧
      (ToolCall.mk "7" "write_email" []).name ∉ catalogNames) ∧
    ((∃ nm, nm ∉ catalogNames ∧
      exec_tool_calls (fun _ _ => ToolOutcome.ok "r") "tok"
          [ToolCall.mk "7" "write_email" []] =
        Except.error ("Function " ++ nm ++ " is not implemented")) ∧
    (∀ (model : ModelOracle) (st st1 : ChatBotState),
      call_llm_with_tools model st = Except.ok st1 →
      lastMessage st1.messages =
        Message.assistant "c" [ToolCall.mk "7" "write_email" []] →
      ∃ nm, nm ∉ catalogNames ∧
        run_from_llm model (fun _ _ => ToolOutcome.ok "r") st =
          Except.error (RunError.notImplementedError
            ("Function " ++ nm ++ " is not implemented") st1))) :=
  ⟨⟨by decide, by decide⟩,
   c4_unknown_tool_aborts (fun _ _ => ToolOutcome.ok "r") "tok"
     [ToolCall.mk "7" "write_email" []] (ToolCall.mk "7" "write_email" []) "c"
     (by decide) (by decide)⟩

/-- C5: `llm_generate` returns `None` exactly on the provider outcomes that
raise (the caught exception kinds); whenever the gateway reports failure the
orchestrator raises the fatal `HTTPException(500)` and transitions to no
recoverable state: a failing invocation at the llm node makes that node raise
immediately, from any state whatsoever; the same holds at the limit node
(`A ModelGateway failure here is also fatal`); and at the run level, if any
model invocation performed during a run receives a failing response, the
whole run aborts with the 500 error.  In particular, a failure on the very
first invocation yields the 500 error with the message list still exactly the
seeded one — no `ToolResult` message is produced. -/
theorem c5_model_failure_fatal :
    (∀ (wt : Bool) (r : ModelResp),
      llm_generate wt r = Option.none ↔ isProviderError r = true) ∧
    (∀ (model : ModelOracle) (st : ChatBotState),
      isProviderError (model (countModelCalls st.trace)) = true →
      call_llm_with_tools model st =
        Except.error (RunError.httpError 500 "Error while calling LLM"
          { st with trace := st.trace ++ [Event.modelCall false true] })) ∧
    (∀ (model : ModelOracle) (st : ChatBotState),
      isProviderError (model (countModelCalls st.trace)) = true →
      limit_llm_request_exceeded model st =
        Except.error (RunError.httpError 500 "Error while calling LLM"
          { st with trace := st.trace ++ [Event.modelCall true true] })) ∧
    (∀ (model : ModelOracle) (exec : ToolExec) (st : ChatBotState),
      (∃ i, countModelCalls st.trace ≤ i ∧
        i < countModelCalls (runTrace model exec st) ∧
        isProviderError (model i) = true) →
      ∃ stSnap, run_from_llm model exec st =
        Except.error (RunError.httpError 500 "Error while calling LLM" stSnap)) ∧
    (∀ (model : ModelOracle) (exec : ToolExec) (n : Int) (token : String)
      (msgs : List Message),
      isProviderError (model 0) = true →
      run_graph model exec n token msgs =
        Except.error (RunError.httpError 500 "Error while calling LLM"
          { initial_state n token msgs with
              trace := [Event.modelCall false true] }) ∧
      (finalState (run_graph model exec n token msgs)).messages = msgs) := by
  refine ⟨llm_generate_none_iff, fun model st h => call_llm_fail_error h,
    fun model st h => limit_fail_error h, run_failure_fatal, ?_⟩
  intro model exec n token msgs hfail
  have hllm := @call_llm_fail_error model (initial_state n token msgs) hfail
  have hrun : run_graph model exec n token msgs =
      Except.error (RunError.httpError 500 "Error while calling LLM"
        { initial_state n token msgs with
            trace := [Event.modelCall false true] }) := by
    unfold run_graph
    exact run_eq_of_llm_error hllm
  refine ⟨hrun, ?_⟩
  rw [hrun]
  rfl

/-- C5 witness: a provider exception at a mid-run llm-node state (the state
already carries a recorded invocation and tool results), at a limit-node
state, anywhere during a whole run, and on the very first invocation of a
run, each aborts with the 500 error. -/
theorem c5_model_failure_fatal_witness :
    isProviderError ((fun _ => ModelResp.chatGoogleGenerativeAIError "quota")
      (countModelCalls
        ({ messages := [Message.human "q"], iterations := 0, response := "",
           token := "tok",
           trace := [Event.modelCall false true, Event.toolResultsAppended 1,
             Event.limitCheck 0] } : ChatBotState).trace)) = true ∧
    call_llm_with_tools (fun _ => ModelResp.chatGoogleGenerativeAIError "quota")
      { messages := [Message.human "q"], iterations := 0, response := "",
        token := "tok", trace := [Event.modelCall false true,
          Event.toolResultsAppended 1, Event.limitCheck 0] } =
      Except.error (RunError.httpError 500 "Error while calling LLM"
        { messages := [Message.human "q"], iterations := 0, response := "",
          token := "tok", trace := [Event.modelCall false true,
            Event.toolResultsAppended 1, Event.limitCheck 0,
            Event.modelCall false true] }) ∧
    limit_llm_request_exceeded (fun _ => ModelResp.chatGoogleGenerativeAIError "quota")
      { messages := [Message.human "q"], iterations := 0, response := "",
        token := "tok", trace := [Event.modelCall false true,
          Event.toolResultsAppended 1, Event.limitCheck 0] } =
      Except.error (RunError.httpError 500 "Error while calling LLM"
        { messages := [Message.human "q"], iterations := 0, response := "",
          token := "tok", trace := [Event.modelCall false true,
            Event.toolResultsAppended 1, Event.limitCheck 0,
            Event.modelCall true true] }) ∧
    (∃ stSnap, run_from_llm (fun _ => ModelResp.langChainException "down")
        (fun _ _ => ToolOutcome.ok "r")
        (initial_state 3 "tok" [Message.system "s", Message.human "q"]) =
      Except.error (RunError.httpError 500 "Error while calling LLM" stSnap)) ∧
    isProviderError ((fun _ => ModelResp.langChainException "down") 0) = true ∧
    (run_graph (fun _ => ModelResp.langChainException "down")
        (fun _ _ => ToolOutcome.ok "r") 3 "tok"
        [Message.system "s", Message.human "q"] =
      Except.error (RunError.httpError 500 "Error while calling LLM"
        { initial_state 3 "tok" [Message.system "s", Message.human "q"] with
            trace := [Event.modelCall false true] }) ∧
    (finalState (run_graph (fun _ => ModelResp.langChainException "down")
        (fun _ _ => ToolOutcome.ok "r") 3 "tok"
        [Message.system "s", Message.human "q"])).messages =
      [Message.system "s", Message.human "q"]) :=
  ⟨by decide,
   c5_model_failure_fatal.2.1 (fun _ => ModelResp.chatGoogleGenerativeAIError "quota")
     { messages := [Message.human "q"], iterations := 0, response := "",
       token := "tok", trace := [Event.modelCall false true,
         Event.toolResultsAppended 1, Event.limitCheck 0] } (by decide),
   c5_model_failure_fatal.2.2.1 (fun _ => ModelResp.chatGoogleGenerativeAIError "quota")
     { messages := [Message.human "q"], iterations := 0, response := "",
       token := "tok", trace := [Event.modelCall false true,
         Event.toolResultsAppended 1, Event.limitCheck 0] } (by decide),
   c5_model_failure_fatal.2.2.2.1 (fun _ => ModelResp.langChainException "down")
     (fun _ _ => ToolOutcome.ok "r")
     (initial_state 3 "tok" [Message.system "s", Message.human "q"])
     (by
       refine ⟨0, by decide, ?_, by rfl⟩
       have hrt : runTrace (fun _ => ModelResp.langChainException "down")
           (fun _ _ => ToolOutcome.ok "r")
           (initial_state 3 "tok" [Message.system "s", Message.human "q"]) =
           [Event.modelCall false true] := by
         unfold runTrace
         rw [run_eq_of_llm_error
           (@call_llm_fail_error (fun _ => ModelResp.langChainException "down")
             (initial_state 3 "tok" [Message.system "s", Message.human "q"])
             (by rfl))]
         rfl
       rw [hrt]
       decide),
   by rfl,
   c5_model_failure_fatal.2.2.2.2 (fun _ => ModelResp.langChainException "down")
     (fun _ _ => ToolOutcome.ok "r") 3 "tok"
     [Message.system "s", Message.human "q"] (by rfl)⟩

/-- C6: for an Assistant turn carrying k tool calls (all with catalog names),
the executor produces exactly k `ToolMessage`s, in the same relative order as
the tool calls, each carrying the id and name of the call it answers; the
`call_api` node appends all of them in one step, during which no model
invocation is recorded. -/
theorem c6_order_preservation (exec : ToolExec) (token : String) (c : String)
    (tcs : List ToolCall)
    (hall : ∀ tc ∈ tcs, tc.name ∈ catalogNames) :
    ∃ ms, exec_tool_calls exec token tcs = Except.ok ms ∧
      ms.length = tcs.length ∧
      (∀ (i : Nat) (tci : ToolCall), tcs[i]? = Option.some tci →
        ∃ content, ms[i]? = Option.some
          (Message.toolMessage content tci.id tci.name)) ∧
      (∀ st : ChatBotState, st.token = token →
        lastMessage st.messages = Message.assistant c tcs →
        call_task_manager_api exec st = Except.ok
          { st with messages := st.messages ++ ms,
                    trace := st.trace ++ [Event.toolResultsAppended ms.length] } ∧
        countModelCalls (st.trace ++ [Event.toolResultsAppended ms.length]) =
          countModelCalls st.trace) := by
  refine ⟨tcs.map (tool_message_for exec token),
    exec_tool_calls_eq_map exec token tcs hall, by simp, ?_, ?_⟩
  · intro i tci hi
    refine ⟨"Function result is: " ++ tool_result_string exec token tci, ?_⟩
    rw [List.getElem?_map, hi]
    rfl
  · intro st hst hlast
    constructor
    · unfold call_task_manager_api
      rw [hlast]
      simp only [tool_calls_of]
      rw [hst, exec_tool_calls_eq_map exec token tcs hall]
    · rw [countModelCalls_append]
      simp [countModelCalls_toolResults]

/-- C6 witness: a two-call turn is answered in order. -/
theorem c6_order_preservation_witness :
    (∀ tc ∈ [ToolCall.mk "a" "create_task" [("title", "x")],
        ToolCall.mk "b" "delete_task" [("task_id", "3")]],
      tc.name ∈ catalogNames) ∧
    ∃ ms, exec_tool_calls (fun _ _ => ToolOutcome.ok "done") "tok"
        [ToolCall.mk "a" "create_task" [("title", "x")],
         ToolCall.mk "b" "delete_task" [("task_id", "3")]] = Except.ok ms ∧
      ms.length = ([ToolCall.mk "a" "create_task" [("title", "x")],
        ToolCall.mk "b" "delete_task" [("task_id", "3")]]).length ∧
      (∀ (i : Nat) (tci : ToolCall),
        ([ToolCall.mk "a" "create_task" [("title", "x")],
          ToolCall.mk "b" "delete_task" [("task_id", "3")]])[i]? =
          Option.some tci →
        ∃ content, ms[i]? = Option.some
          (Message.toolMessage content tci.id tci.name)) ∧
      (∀ st : ChatBotState, st.token = "tok" →
        lastMessage st.messages = Message.assistant "c"
          [ToolCall.mk "a" "create_task" [("title", "x")],
           ToolCall.mk "b" "delete_task" [("task_id", "3")]] →
        call_task_manager_api (fun _ _ => ToolOutcome.ok "done") st = Except.ok
          { st with messages := st.messages ++ ms,
                    trace := st.trace ++ [Event.toolResultsAppended ms.length] } ∧
        countModelCalls (st.trace ++ [Event.toolResultsAppended ms.length]) =
          countModelCalls st.trace) :=
  ⟨by decide,
   c6_order_preservation (fun _ _ => ToolOutcome.ok "done") "tok" "c"
     [ToolCall.mk "a" "create_task" [("title", "x")],
      ToolCall.mk "b" "delete_task" [("task_id", "3")]] (by decide)⟩

/-- C7: the iteration counter decreases by exactly 1 in `call_llm_with_tools`
and is unchanged by the tool step and by the limit node; the limit check is
the comparison `iterations <= 0`; and in every run each consultation of the
check happens immediately after the current turn's tool results were appended
(never at the start of the run and never right after a model call). -/
theorem c7_budget_monotonicity :
    (∀ (model : ModelOracle) (st st' : ChatBotState),
      call_llm_with_tools model st = Except.ok st' →
      st'.iterations = st.iterations - 1) ∧
    (∀ (exec : ToolExec) (st st' : ChatBotState),
      call_task_manager_api exec st = Except.ok st' →
      st'.iterations = st.iterations) ∧
    (∀ (model : ModelOracle) (st st' : ChatBotState),
      limit_llm_request_exceeded model st = Except.ok st' →
      st'.iterations = st.iterations) ∧
    (∀ st : ChatBotState,
      check_gemini_limit_request st = "limit_llm_request" ↔ st.iterations ≤ 0) ∧
    (∀ (model : ModelOracle) (exec : ToolExec) (n : Int) (token : String)
      (msgs : List Message),
      CheckAfterTools (runTrace model exec (initial_state n token msgs))) := by
  refine ⟨?_, ?_, ?_, check_eq_limit_iff, ?_⟩
  · intro model st st' h
    exact (call_llm_with_tools_ok h).1
  · intro exec st st' h
    exact (call_task_manager_api_ok h).1
  · intro model st st' h
    exact (limit_llm_request_exceeded_ok h).1
  · intro model exec n token msgs
    apply (run_trace_structure model exec (initial_state n token msgs)).2
    intro i v hi
    have hnil : ((initial_state n token msgs).trace)[i]? = Option.none := by
      rw [show (initial_state n token msgs).trace = [] from rfl]
      exact List.getElem?_eq_none (by simp)
    rw [hnil] at hi
    exact Option.noConfusion hi

/-- C7 witness: a concrete model step decrements the counter by exactly 1. -/
theorem c7_budget_monotonicity_witness :
    call_llm_with_tools (fun _ => ModelResp.resp "ok" [])
        { messages := [Message.human "hi"], iterations := 3, response := "",
          token := "t", trace := [] } = Except.ok
        { messages := [Message.human "hi", Message.assistant "ok" []],
          iterations := 2, response := "", token := "t",
          trace := [Event.modelCall false true] } ∧
    ({ messages := [Message.human "hi", Message.assistant "ok" []],
       iterations := 2, response := "", token := "t",
       trace := [Event.modelCall false true] } : ChatBotState).iterations =
      ({ messages := [Message.human "hi"], iterations := 3, response := "",
         token := "t", trace := [] } : ChatBotState).iterations - 1 :=
  ⟨by decide,
   c7_budget_monotonicity.1 (fun _ => ModelResp.resp "ok" []) _ _ (by decide)⟩

/-- C8: the executor installs the request-scoped token under the key "token"
by Python-dict assignment, overwriting any model-supplied entry: the injected
mapping always yields the state token at "token", and two model-supplied
argument mappings that agree everywhere except possibly at "token" become
extensionally equal mappings after injection — the tool is invoked with the
same arguments. -/
theorem c8_token_injection (token : String) (a1 a2 : List (String × String))
    (h : ∀ k ∈ a1.map Prod.fst ++ a2.map Prod.fst, k ≠ "token" →
      pyDictGet a1 k = pyDictGet a2 k) :
    pyDictGet (pyDictSet a1 "token" token) "token" = Option.some token ∧
    ∀ k, pyDictGet (pyDictSet a1 "token" token) k =
      pyDictGet (pyDictSet a2 "token" token) k := by
  refine ⟨pyDictGet_pyDictSet_self a1 "token" token, ?_⟩
  intro k
  by_cases hk : k = "token"
  · subst hk
    rw [pyDictGet_pyDictSet_self, pyDictGet_pyDictSet_self]
  · rw [pyDictGet_pyDictSet_ne a1 token hk, pyDictGet_pyDictSet_ne a2 token hk]
    by_cases hmem : k ∈ a1.map Prod.fst ++ a2.map Prod.fst
    · exact h k hmem hk
    · rw [List.mem_append] at hmem
      push_neg at hmem
      rw [pyDictGet_eq_none_of_not_mem hmem.1, pyDictGet_eq_none_of_not_mem hmem.2]

/-- C8 witness: a model-supplied "token" entry is overwritten; the injected
mappings agree (shown at the key "title" and at "token"). -/
theorem c8_token_injection_witness :
    (∀ k ∈ ([("title", "x"), ("token", "EVIL")] :
        List (String × String)).map Prod.fst ++
        ([("title", "x")] : List (String × String)).map Prod.fst,
      k ≠ "token" →
      pyDictGet [("title", "x"), ("token", "EVIL")] k =
        pyDictGet [("title", "x")] k) ∧
    pyDictGet (pyDictSet [("title", "x"), ("token", "EVIL")] "token" "SECRET")
      "token" = Option.some "SECRET" ∧
    pyDictGet (pyDictSet [("title", "x"), ("token", "EVIL")] "token" "SECRET")
      "title" =
      pyDictGet (pyDictSet [("title", "x")] "token" "SECRET") "title" :=
  ⟨by decide,
   (c8_token_injection "SECRET" [("title", "x"), ("token", "EVIL")]
     [("title", "x")] (by decide)).1,
   (c8_token_injection "SECRET" [("title", "x"), ("token", "EVIL")]
     [("title", "x")] (by decide)).2 "title"⟩

/-- C10: the update data's keys are exactly {title, description, completed,
deadline, collection_id} for tasks and {name} for collections; an
`updated_fields` entry outside those keys makes the field-filtering dict
comprehension raise `KeyError` (for some missing key) before any request value
is produced; inside `call_task_manager_api` an exception raised by the invoked
tool function is caught and becomes the non-aborting `ToolMessage` text. -/
theorem c10_unknown_field_keyerror :
    (∀ (title description : Option String) (completed : Bool)
      (deadline : Option String) (collection_id : Option Int),
      (update_task_data title description completed deadline
        collection_id).map Prod.fst =
        ["title", "description", "completed", "deadline", "collection_id"]) ∧
    (∀ nm : Option String, (update_collection_data nm).map Prod.fst = ["name"]) ∧
    (∀ (task_id : Int) (fields : List String) (f0 : String)
      (title description : Option String) (completed : Bool)
      (deadline : Option String) (collection_id : Option Int),
      f0 ∈ fields →
      f0 ∉ (update_task_data title description completed deadline
        collection_id).map Prod.fst →
      ∃ g, g ∉ (update_task_data title description completed deadline
          collection_id).map Prod.fst ∧
        update_task task_id fields title description completed deadline
          collection_id = Except.error g) ∧
    (∀ (cid : Int) (fields : List String) (f0 : String) (nm : Option String),
      f0 ∈ fields → f0 ∉ (update_collection_data nm).map Prod.fst →
      ∃ g, g ∉ (update_collection_data nm).map Prod.fst ∧
        update_collection cid fields nm = Except.error g) ∧
    (∀ (exec : ToolExec) (token : String) (tc : ToolCall) (f : ToolFn)
      (e : String),
      get_function_by_name tc.name = Except.ok f →
      exec f (pyDictSet tc.args "token" token) = ToolOutcome.raised e →
      exec_tool_calls exec token [tc] =
        Except.ok [Message.toolMessage ("Function result is: " ++ e)
          tc.id tc.name]) := by
  refine ⟨fun _ _ _ _ _ => rfl, fun _ => rfl, ?_, ?_, ?_⟩
  · intro task_id fields f0 title description completed deadline collection_id
      hmem hout
    have hnone : pyDictGet (update_task_data title description completed
        deadline collection_id) f0 = Option.none :=
      pyDictGet_eq_none_of_not_mem hout
    obtain ⟨g, hg, herr⟩ := dict_comprehension_error _ fields f0 hmem hnone
    refine ⟨g, ?_, ?_⟩
    · intro hgm
      have := (pyDictGet_isSome_iff (update_task_data title description
        completed deadline collection_id) g).mpr hgm
      rw [hg] at this
      exact Bool.noConfusion this
    · simp only [update_task, herr]
  · intro cid fields f0 nm hmem hout
    have hnone : pyDictGet (update_collection_data nm) f0 = Option.none :=
      pyDictGet_eq_none_of_not_mem hout
    obtain ⟨g, hg, herr⟩ := dict_comprehension_error _ fields f0 hmem hnone
    refine ⟨g, ?_, ?_⟩
    · intro hgm
      have := (pyDictGet_isSome_iff (update_collection_data nm) g).mpr hgm
      rw [hg] at this
      exact Bool.noConfusion this
    · simp only [update_collection, herr]
  · intro exec token tc f e hf he
    simp only [exec_tool_calls, hf, he]

/-- C10 witness: a bogus "priority" field makes `update_task` raise the
`KeyError` instead of issuing a request. -/
theorem c10_unknown_field_keyerror_witness :
    ("priority" ∈ ["priority"] ∧
      "priority" ∉ (update_task_data (Option.some "t") Option.none false
        Option.none Option.none).map Prod.fst) ∧
    ∃ g, g ∉ (update_task_data (Option.some "t") Option.none false
        Option.none Option.none).map Prod.fst ∧
      update_task 5 ["priority"] (Option.some "t") Option.none false
        Option.none Option.none = Except.error g :=
  ⟨⟨by decide, by decide⟩,
   c10_unknown_field_keyerror.2.2.1 5 ["priority"] "priority" (Option.some "t")
     Option.none false Option.none Option.none (by decide) (by decide)⟩

end AITaskManager
